import Mathlib

set_option linter.unusedVariables false

/-! Verification development for the MarketMind data-loading component
(`components/data_loader.py`).  Prices, delays and timestamps are modelled
as exact rationals, pandas missing values (NaN) as `none`, and the UI
diagnostics (`st.warning`, `st.error`, `st.progress`, `st.empty().text`)
together with `time.sleep` as an explicit effect trace returned next to
the value.  Division only ever occurs at positive denominators in the
data model (spec §3 requires positive prices), where rational and
floating-point evaluation agree. -/

/-- One observable side effect of a data-loading operation: a network
fetch (`yf.Ticker(...).history` or `.info`), a `time.sleep`, or one of the
Streamlit diagnostics / progress widgets. -/
inductive Effect where
  | fetch : Effect
  | sleep (duration : ℚ) : Effect
  | warning (msg : String) : Effect
  | error (msg : String) : Effect
  | statusText (msg : String) : Effect
  | progress (fraction : ℚ) : Effect
  deriving DecidableEq

/-- One raw OHLCV row as returned by the provider; each field may be
missing (pandas NaN). -/
structure RawBar where
  Open : Option ℚ
  High : Option ℚ
  Low : Option ℚ
  Close : Option ℚ
  Volume : Option ℚ
  deriving DecidableEq

/-- Outcome of one call to the provider's history endpoint
(`ticker.history(period=…, interval=…)`): either a raw OHLCV frame or a
raised exception carrying a message. -/
inductive FetchOutcome where
  | ok (bars : List RawBar) : FetchOutcome
  | err (msg : String) : FetchOutcome

/-- NaN-propagating subtraction on pandas cells. -/
def sub2 : Option ℚ → Option ℚ → Option ℚ
  | some a, some b => some (a - b)
  | _, _ => none

/-- NaN-propagating division on pandas cells.  Float division is NaN
exactly when an operand is NaN or both operands are zero; a non-zero
numerator over zero gives ±infinity, which pandas treats as a defined
(non-null) value — here rendered by the rational convention `a / 0 = 0`,
faithful for definedness, while every value-bearing use in the theorems
has a positive denominator. -/
def div2 : Option ℚ → Option ℚ → Option ℚ
  | some a, some b => if a = 0 ∧ b = 0 then none else some (a / b)
  | _, _ => none

/-- Element `i` of a column, `none` (NaN) out of range. -/
def cell (col : List (Option ℚ)) (i : ℕ) : Option ℚ :=
  col.getD i none

/-- Columnwise forward fill, `data.fillna(method=ffill)`: each NaN cell is
replaced by the last non-NaN cell above it (`prev`), leading NaNs stay. -/
def ffillCol : Option ℚ → List (Option ℚ) → List (Option ℚ)
  | _, [] => []
  | prev, none :: t => prev :: ffillCol prev t
  | _, some v :: t => some v :: ffillCol (some v) t

/-- `series.pct_change()`: `(x_i - x_(i-1)) / x_(i-1)`, NaN at index 0,
wherever an operand is NaN, and on the float indeterminate form `0 / 0`
(both cells zero); a non-zero cell over a zero predecessor gives
±infinity, defined in pandas, rendered by the `a / 0 = 0` convention as
in `div2`. -/
def pct_change (xs : List (Option ℚ)) : List (Option ℚ) :=
  (List.range xs.length).map fun i =>
    if i = 0 then none
    else
      match cell xs (i - 1), cell xs i with
      | some prev, some cur =>
        if prev = 0 ∧ cur = 0 then none else some ((cur - prev) / prev)
      | _, _ => none

/-- Successive quotient `x_i / x_(i-1)`, NaN at index 0 and wherever an
operand is NaN or both cells are zero (`0 / 0`).  The source stores the
natural logarithm of this quotient (`np.log(Close / Close.shift(1))`);
for positive closes the logarithm is defined exactly where the quotient
is, so definedness is unchanged. -/
def shiftQuot (xs : List (Option ℚ)) : List (Option ℚ) :=
  (List.range xs.length).map fun i =>
    if i = 0 then none
    else
      match cell xs (i - 1), cell xs i with
      | some prev, some cur =>
        if prev = 0 ∧ cur = 0 then none else some (cur / prev)
      | _, _ => none

/-- The pandas window of size 20 ending at index `i`: elements
`max (i - 19) 0 … i` of the column. -/
def window20 (xs : List (Option ℚ)) (i : ℕ) : List (Option ℚ) :=
  (xs.take (i + 1)).drop (i - 19)

/-- `series.rolling(window=20).agg`: with the default
`min_periods = window`, the result at `i` is NaN unless the window holds
20 cells and every one of them is non-NaN; otherwise `f` is applied to the
window's values. -/
def rollingApply (f : List ℚ → ℚ) (xs : List (Option ℚ)) : List (Option ℚ) :=
  (List.range xs.length).map fun i =>
    let w := window20 xs i
    if w.length = 20 ∧ ∀ x ∈ w, x ≠ none then some (f w.reduceOption) else none

/-- Arithmetic mean of a list of rationals. -/
def listMean (l : List ℚ) : ℚ := l.sum / l.length

/-- Sample variance (`ddof = 1`, the pandas `std` default).  The source's
`Volatility` column stores the square root of this quantity; the square
root of a nonnegative rational is defined exactly when the variance is,
so carrying the variance keeps definedness (the subject of the spec's
claims) identical. -/
def sampleVar (l : List ℚ) : ℚ :=
  (l.map fun x => (x - listMean l) ^ 2).sum / ((l.length : ℚ) - 1)

/-- Minimum of a list of rationals (only applied to 20-element windows). -/
def listMin : List ℚ → ℚ
  | [] => 0
  | h :: t => t.foldl min h

/-- Maximum of a list of rationals (only applied to 20-element windows). -/
def listMax : List ℚ → ℚ
  | [] => 0
  | h :: t => t.foldl max h

/-- The cleaned and enhanced frame produced by `_clean_stock_data`:
the raw OHLCV columns plus the derived columns, in the source's order. -/
structure StockFrame where
  Open : List (Option ℚ)
  High : List (Option ℚ)
  Low : List (Option ℚ)
  Close : List (Option ℚ)
  Volume : List (Option ℚ)
  Symbol : String
  Returns : List (Option ℚ)
  Log_Returns : List (Option ℚ)
  Volatility : List (Option ℚ)
  Price_Range : List (Option ℚ)
  Price_Range_Pct : List (Option ℚ)
  Volume_MA : List (Option ℚ)
  Volume_Ratio : List (Option ℚ)
  Support : List (Option ℚ)
  Resistance : List (Option ℚ)
  deriving DecidableEq

/-- Row predicate for `data.dropna(how=all)`: keep the row unless every
field is NaN. -/
def notAllNa (b : RawBar) : Bool :=
  !((b.Open).isNone && (b.High).isNone && (b.Low).isNone &&
    (b.Close).isNone && (b.Volume).isNone)

/-- `DataLoader._clean_stock_data`: drop all-NaN rows, forward-fill each
column, attach the symbol, and compute the derived columns (returns, log
returns, 20-period volatility, price range and its percentage, 20-period
volume average and volume ratio, 20-period support and resistance). -/
def _clean_stock_data (raw : List RawBar) (symbol : String) : StockFrame :=
  let rows := raw.filter notAllNa
  let o := ffillCol none (rows.map RawBar.Open)
  let h := ffillCol none (rows.map RawBar.High)
  let l := ffillCol none (rows.map RawBar.Low)
  let c := ffillCol none (rows.map RawBar.Close)
  let v := ffillCol none (rows.map RawBar.Volume)
  let ret := pct_change c
  let vma := rollingApply listMean v
  let pr := List.zipWith sub2 h l
  { Open := o
    High := h
    Low := l
    Close := c
    Volume := v
    Symbol := symbol
    Returns := ret
    Log_Returns := shiftQuot c
    Volatility := rollingApply sampleVar ret
    Price_Range := pr
    Price_Range_Pct := List.zipWith (fun a b => (div2 a b).map (· * 100)) pr c
    Volume_MA := vma
    Volume_Ratio := List.zipWith div2 v vma
    Support := rollingApply listMin l
    Resistance := rollingApply listMax h }

/-- The `DataLoader` configuration set in `__init__`. -/
structure DataLoader where
  cache_duration : ℕ
  max_retries : ℕ
  retry_delay : ℚ

/-- `DataLoader()`: `cache_duration = 300`, `max_retries = 3`,
`retry_delay = 1`. -/
def DataLoader.init : DataLoader :=
  { cache_duration := 300, max_retries := 3, retry_delay := 1 }

/-- Abstract provider history endpoint: outcome as a function of symbol,
period, interval and the (0-based) attempt number. -/
def FetchHistory : Type :=
  String → String → String → ℕ → FetchOutcome

/-- The body of `get_stock_data`'s retry loop, one recursive step per
remaining loop iteration (`fuel` starts at `max_retries`; running out of
fuel is the loop's fall-through `return None`).  Each iteration issues a
fetch; an empty frame reports not-found and returns `None`; an exception
either sleeps `retry_delay * (attempt + 1)` and retries (when further
attempts remain) or reports failure with the last cause and returns
`None`; a non-empty frame is cleaned and returned. -/
def fetchAttempts (dl : DataLoader) (f : FetchHistory) (symbol period interval : String) :
    ℕ → ℕ → Option StockFrame × List Effect
  | 0, _ => (none, [])
  | fuel + 1, attempt =>
    match f symbol period interval attempt with
    | FetchOutcome.ok bars =>
      if bars.isEmpty then
        (none, [Effect.fetch, Effect.error ("No data found for symbol: " ++ symbol)])
      else
        (some (_clean_stock_data bars symbol), [Effect.fetch])
    | FetchOutcome.err e =>
      if attempt < dl.max_retries - 1 then
        let n1 := attempt + 1
        let r := fetchAttempts dl f symbol period interval fuel (attempt + 1)
        (r.1,
          Effect.fetch ::
          Effect.warning ("Attempt " ++ toString n1 ++ " failed for " ++ symbol ++ ", retrying...") ::
          Effect.sleep (dl.retry_delay * (n1 : ℚ)) :: r.2)
      else
        let mr := dl.max_retries
        (none,
          [Effect.fetch,
           Effect.error ("Failed to fetch data for " ++ symbol ++ " after " ++
             toString mr ++ " attempts: " ++ e)])

/-- `DataLoader.get_stock_data(symbol, period, interval)` over an abstract
provider `f`, returning the result (`None` on any failure) and the
observable effect trace. -/
def get_stock_data (dl : DataLoader) (f : FetchHistory) (symbol : String)
    (period : String := "1y") (interval : String := "1d") :
    Option StockFrame × List Effect :=
  fetchAttempts dl f symbol period interval dl.max_retries 0

/-- Number of provider fetches recorded in a trace. -/
def numFetches (tr : List Effect) : ℕ :=
  tr.countP fun e => e = Effect.fetch

/-- The sleep durations recorded in a trace, in order. -/
def sleeps (tr : List Effect) : List ℚ :=
  tr.filterMap fun e =>
    match e with
    | Effect.sleep d => some d
    | _ => none

/-- Row count of a frame (`len(data)`); all columns share this length. -/
def StockFrame.len (F : StockFrame) : ℕ :=
  F.Close.length

/-- One step of the `get_multiple_stocks` loop, carrying the 0-based
position `i` and the total count for the progress fraction.  Returns the
success map (insertion order), the failed symbols (in order) and the
trace of the loop body. -/
def gmsLoop (dl : DataLoader) (f : FetchHistory) (period : String) (total : ℕ) :
    List String → ℕ → List (String × StockFrame) × List String × List Effect
  | [], _ => ([], [], [])
  | s :: rest, i =>
    let r := get_stock_data dl f s period "1d"
    let next := gmsLoop dl f period total rest (i + 1)
    let tail :=
      Effect.statusText ("Loading " ++ s ++ "...") ::
        r.2 ++ [Effect.progress ((i + 1 : ℚ) / (total : ℚ)), Effect.sleep (1 / 10)] ++ next.2.2
    match r.1 with
    | some frame => ((s, frame) :: next.1, next.2.1, tail)
    | none => (next.1, s :: next.2.1, tail)

/-- `DataLoader.get_multiple_stocks(symbols, period)`: fetch each symbol
via `get_stock_data` (interval left at its default), collect successes in
a symbol-keyed map and failures in a list; emit progress updates, and a
single warning naming all failed symbols when there are any.  Only the
success map is returned as the value; the widget-clearing calls
(`progress_bar.empty()`, `status_text.empty()`) are purely presentational
and are not modelled. -/
def get_multiple_stocks (dl : DataLoader) (f : FetchHistory) (symbols : List String)
    (period : String := "1y") : List (String × StockFrame) × List Effect :=
  let r := gmsLoop dl f period symbols.length symbols 0
  (r.1,
    Effect.progress 0 :: r.2.2 ++
      (if r.2.1.isEmpty then []
       else [Effect.warning ("Failed to load data for: " ++ String.intercalate ", " r.2.1)]))

/-- Largest valid (non-NaN) cell of a column (`series.max()`, which skips
NaN); NaN when no cell is valid. -/
def colMax (col : List (Option ℚ)) : Option ℚ :=
  match col.reduceOption with
  | [] => none
  | h :: t => some (t.foldl max h)

/-- Smallest valid cell of a column (`series.min()`, skipping NaN). -/
def colMin (col : List (Option ℚ)) : Option ℚ :=
  match col.reduceOption with
  | [] => none
  | h :: t => some (t.foldl min h)

/-- Mean of the valid cells of a column (`series.mean()`, skipping NaN). -/
def colMean (col : List (Option ℚ)) : Option ℚ :=
  match col.reduceOption with
  | [] => none
  | h :: t => some ((h :: t).sum / ((h :: t).length : ℚ))

/-- One market index's snapshot as assembled by `get_market_indices`. -/
structure IndexSnapshot where
  symbol : String
  current : Option ℚ
  previous : Option ℚ
  change : Option ℚ
  change_pct : Option ℚ
  week_high : Option ℚ
  week_low : Option ℚ
  avg_volume : Option ℚ
  data : StockFrame
  deriving DecidableEq

/-- The fixed index table of `get_market_indices`. -/
def indicesList : List (String × String) :=
  [("S&P 500", "^GSPC"), ("NASDAQ", "^IXIC"), ("DOW JONES", "^DJI"),
   ("Russell 2000", "^RUT"), ("VIX", "^VIX")]

/-- The per-index body of `get_market_indices`: fetch a 5-day daily
window; when the fetch succeeded and at least 2 rows remain, build the
snapshot (`change = current - previous`,
`change_pct = change / previous * 100`, trailing-window high/low and
average volume); otherwise warn about insufficient data and skip. -/
def processIndex (dl : DataLoader) (f : FetchHistory) (p : String × String) :
    Option IndexSnapshot × List Effect :=
  let r := get_stock_data dl f p.2 "5d" "1d"
  match r.1 with
  | some frame =>
    if 2 ≤ frame.len then
      let current := cell frame.Close (frame.len - 1)
      let previous := cell frame.Close (frame.len - 2)
      let change := sub2 current previous
      (some
        { symbol := p.2
          current := current
          previous := previous
          change := change
          change_pct := (div2 change previous).map (· * 100)
          week_high := colMax frame.High
          week_low := colMin frame.Low
          avg_volume := colMean frame.Volume
          data := frame }, r.2)
    else
      (none, r.2 ++ [Effect.warning ("Insufficient data for " ++ p.1)])
  | none => (none, r.2 ++ [Effect.warning ("Insufficient data for " ++ p.1)])

/-- `DataLoader.get_market_indices()`: process the fixed index table in
order, keeping only the indices whose snapshot was built. -/
def get_market_indices (dl : DataLoader) (f : FetchHistory) :
    List (String × IndexSnapshot) × List Effect :=
  (indicesList.filterMap fun p => (processIndex dl f p).1.map fun s => (p.1, s),
   (indicesList.map fun p => (processIndex dl f p).2).flatten)

/-- One value of the provider's `ticker.info` dictionary. -/
inductive InfoValue where
  | str (s : String) : InfoValue
  | num (q : ℚ) : InfoValue
  deriving DecidableEq

/-- `info.get(key, dflt)` on the provider's fundamentals dictionary. -/
def infoGet (info : List (String × InfoValue)) (key : String) (dflt : InfoValue) : InfoValue :=
  (info.lookup key).getD dflt

/-- The `key_metrics` dictionary built by `get_company_info`.  The Python
keys `52_week_high` / `52_week_low` begin with a digit and are rendered
here as `wk52_high` / `wk52_low`. -/
structure CompanyInfo where
  symbol : String
  name : InfoValue
  sector : InfoValue
  industry : InfoValue
  country : InfoValue
  website : InfoValue
  market_cap : InfoValue
  enterprise_value : InfoValue
  pe_ratio : InfoValue
  forward_pe : InfoValue
  peg_ratio : InfoValue
  price_to_book : InfoValue
  price_to_sales : InfoValue
  dividend_yield : InfoValue
  dividend_rate : InfoValue
  payout_ratio : InfoValue
  beta : InfoValue
  eps : InfoValue
  revenue : InfoValue
  profit_margin : InfoValue
  operating_margin : InfoValue
  return_on_equity : InfoValue
  return_on_assets : InfoValue
  volume : InfoValue
  avg_volume : InfoValue
  wk52_high : InfoValue
  wk52_low : InfoValue
  target_price : InfoValue
  recommendation : InfoValue
  num_analyst_opinions : InfoValue
  business_summary : InfoValue
  deriving DecidableEq

/-- Abstract provider fundamentals endpoint (`ticker.info`): either the
dictionary or a raised exception's message. -/
def FetchProfile : Type :=
  String → Except String (List (String × InfoValue))

/-- `DataLoader.get_company_info(symbol)`: map each fundamentals field
with `info.get`, defaulting string-typed fields to the string `N/A` and
numeric fields to the number `0`; a raised exception reports an error and
returns `None`. -/
def get_company_info (fp : FetchProfile) (symbol : String) :
    Option CompanyInfo × List Effect :=
  match fp symbol with
  | Except.error e =>
    (none, [Effect.error ("Error fetching company info for " ++ symbol ++ ": " ++ e)])
  | Except.ok info =>
    (some
      { symbol := symbol
        name := infoGet info "longName" (InfoValue.str "N/A")
        sector := infoGet info "sector" (InfoValue.str "N/A")
        industry := infoGet info "industry" (InfoValue.str "N/A")
        country := infoGet info "country" (InfoValue.str "N/A")
        website := infoGet info "website" (InfoValue.str "N/A")
        market_cap := infoGet info "marketCap" (InfoValue.num 0)
        enterprise_value := infoGet info "enterpriseValue" (InfoValue.num 0)
        pe_ratio := infoGet info "trailingPE" (InfoValue.num 0)
        forward_pe := infoGet info "forwardPE" (InfoValue.num 0)
        peg_ratio := infoGet info "pegRatio" (InfoValue.num 0)
        price_to_book := infoGet info "priceToBook" (InfoValue.num 0)
        price_to_sales := infoGet info "priceToSalesTrailing12Months" (InfoValue.num 0)
        dividend_yield := infoGet info "dividendYield" (InfoValue.num 0)
        dividend_rate := infoGet info "dividendRate" (InfoValue.num 0)
        payout_ratio := infoGet info "payoutRatio" (InfoValue.num 0)
        beta := infoGet info "beta" (InfoValue.num 0)
        eps := infoGet info "trailingEps" (InfoValue.num 0)
        revenue := infoGet info "totalRevenue" (InfoValue.num 0)
        profit_margin := infoGet info "profitMargins" (InfoValue.num 0)
        operating_margin := infoGet info "operatingMargins" (InfoValue.num 0)
        return_on_equity := infoGet info "returnOnEquity" (InfoValue.num 0)
        return_on_assets := infoGet info "returnOnAssets" (InfoValue.num 0)
        volume := infoGet info "volume" (InfoValue.num 0)
        avg_volume := infoGet info "averageVolume" (InfoValue.num 0)
        wk52_high := infoGet info "fiftyTwoWeekHigh" (InfoValue.num 0)
        wk52_low := infoGet info "fiftyTwoWeekLow" (InfoValue.num 0)
        target_price := infoGet info "targetMeanPrice" (InfoValue.num 0)
        recommendation := infoGet info "recommendationKey" (InfoValue.str "N/A")
        num_analyst_opinions := infoGet info "numberOfAnalystOpinions" (InfoValue.num 0)
        business_summary := infoGet info "longBusinessSummary" (InfoValue.str "N/A") }, [])

/-- Round to the nearest integer, ties to the even neighbour — the
rounding Python's fixed-point string formatting applies. -/
def roundHalfEven (q : ℚ) : ℤ :=
  let n := ⌊q⌋
  if q - n < 1 / 2 then n
  else if 1 / 2 < q - n then n + 1
  else if Even n then n else n + 1

/-- Render a natural number below 100 with two digits. -/
def pad2 (r : ℕ) : String :=
  if r < 10 then "0" ++ toString r else toString r

/-- Python's fixed-point rendering with two decimals (the `.2f` format
specifier): sign, then the magnitude rounded half-to-even at the second
decimal. -/
def formatFixed2 (q : ℚ) : String :=
  let m := (roundHalfEven (|q| * 100)).toNat
  (if q < 0 then "-" else "") ++ toString (m / 100) ++ "." ++ pad2 (m % 100)

/-- `DataLoader.format_currency(value)`: `N/A` on NaN/None (`none`) or an
exactly-zero value, otherwise a dollar sign and the value scaled by the
first threshold it reaches among 1e12 (`T`), 1e9 (`B`), 1e6 (`M`),
1e3 (`K`), with two decimals; below 1e3 the value itself with two
decimals. -/
def format_currency (value : Option ℚ) : String :=
  match value with
  | none => "N/A"
  | some v =>
    if v = 0 then "N/A"
    else if (10 : ℚ) ^ 12 ≤ v then "$" ++ formatFixed2 (v / 10 ^ 12) ++ "T"
    else if (10 : ℚ) ^ 9 ≤ v then "$" ++ formatFixed2 (v / 10 ^ 9) ++ "B"
    else if (10 : ℚ) ^ 6 ≤ v then "$" ++ formatFixed2 (v / 10 ^ 6) ++ "M"
    else if (10 : ℚ) ^ 3 ≤ v then "$" ++ formatFixed2 (v / 10 ^ 3) ++ "K"
    else "$" ++ formatFixed2 v

/-- `DataLoader.format_percentage(value)`: `N/A` on NaN/None or an
exactly-zero value, otherwise the Python `.2%` rendering — the value
times 100 with two decimals and a percent sign. -/
def format_percentage (value : Option ℚ) : String :=
  match value with
  | none => "N/A"
  | some v => if v = 0 then "N/A" else formatFixed2 (v * 100) ++ "%"

/-- `DataLoader.format_number(value)`: like `format_currency` but with no
dollar sign and no 1e12 threshold. -/
def format_number (value : Option ℚ) : String :=
  match value with
  | none => "N/A"
  | some v =>
    if v = 0 then "N/A"
    else if (10 : ℚ) ^ 9 ≤ v then formatFixed2 (v / 10 ^ 9) ++ "B"
    else if (10 : ℚ) ^ 6 ≤ v then formatFixed2 (v / 10 ^ 6) ++ "M"
    else if (10 : ℚ) ^ 3 ≤ v then formatFixed2 (v / 10 ^ 3) ++ "K"
    else formatFixed2 v

/-- Modelled from the spec: the `st.cache_data` layer is the Streamlit
framework, not code of this repository, so its entries are modelled from
spec §3 — a cached payload together with its fetch timestamp. -/
structure CacheEntry (α : Type) where
  payload : α
  fetchTime : ℚ

/-- Modelled from the spec: the process-wide cache map, keyed by the
operation's input parameters. -/
def CacheMap (κ α : Type) : Type :=
  List (κ × CacheEntry α)

/-- Modelled from the spec: find the most recently stored entry for a
key. -/
def cacheLookup {κ α : Type} [DecidableEq κ] : CacheMap κ α → κ → Option (CacheEntry α)
  | [], _ => none
  | (k, e) :: t, key => if key = k then some e else cacheLookup t key

/-- Modelled from the spec: serve a cached payload only when an entry for
the key exists and is no older than the time-to-live; a stale or missing
entry is never served. -/
def cacheServe {κ α : Type} [DecidableEq κ] (ttl now : ℚ) (c : CacheMap κ α) (key : κ) :
    Option α :=
  match cacheLookup c key with
  | some e => if now - e.fetchTime ≤ ttl then some e.payload else none
  | none => none

/-- Modelled from the spec: a cached operation call at time `now` — serve
a fresh entry without computing, otherwise compute, store the payload
with a fresh timestamp and return it.  The third component counts the
underlying computations (network fetches) this call performed. -/
def cachedCall {κ α : Type} [DecidableEq κ] (ttl : ℚ) (compute : κ → α) (c : CacheMap κ α)
    (key : κ) (now : ℚ) : α × CacheMap κ α × ℕ :=
  match cacheServe ttl now c key with
  | some v => (v, c, 0)
  | none => (compute key, (key, ⟨compute key, now⟩) :: c, 1)

/-- Cache time-to-live of `get_stock_data`, from its decorator
(`ttl=300`). -/
def get_stock_data_ttl : ℚ := 300

/-- Cache time-to-live of `get_market_indices`, from its decorator
(`ttl=600`). -/
def get_market_indices_ttl : ℚ := 600

/-- Cache time-to-live of `get_company_info`, from its decorator
(`ttl=3600`). -/
def get_company_info_ttl : ℚ := 3600

/-- Cache time-to-live of `get_stock_news`, from its decorator
(`ttl=1800`). -/
def get_stock_news_ttl : ℚ := 1800

/-- A fully populated constant bar, used as a concrete fixture. -/
def constBar : RawBar :=
  { Open := some 1, High := some 1, Low := some 1, Close := some 1, Volume := some 1 }

/-- Twenty constant bars — the smallest series the spec's rolling-window
claim quantifies over. -/
def constRaw20 : List RawBar :=
  List.replicate 20 constBar

/-- A fully populated bar whose volume is zero (spec §3 allows it:
volume is a non-negative integer). -/
def constBarZeroVol : RawBar :=
  { Open := some 1, High := some 1, Low := some 1, Close := some 1, Volume := some 0 }

/-- Twenty constant bars of zero volume: a window on which the volume
ratio is the float indeterminate form `0 / 0`. -/
def constRawZeroVol20 : List RawBar :=
  List.replicate 20 constBarZeroVol

/-- A provider whose history endpoint raises on every attempt. -/
def alwaysFail : FetchHistory :=
  fun _ _ _ _ => FetchOutcome.err "connection reset"

/-- A provider whose history endpoint succeeds with an empty frame. -/
def emptyOk : FetchHistory :=
  fun _ _ _ _ => FetchOutcome.ok []

/-- A provider for which only `AAPL` has data (a single bar); all other
symbols raise. -/
def aaplOnly : FetchHistory :=
  fun s _ _ _ => if s = "AAPL" then FetchOutcome.ok [constBar] else FetchOutcome.err "no data"

/-- A constant bar with close 100. -/
def bar100 : RawBar :=
  { Open := some 100, High := some 100, Low := some 100, Close := some 100, Volume := some 1000 }

/-- A constant bar with close 102. -/
def bar102 : RawBar :=
  { Open := some 102, High := some 102, Low := some 102, Close := some 102, Volume := some 1000 }

/-- A provider for which only the S&P 500 symbol has data (two bars with
closes 100 then 102); every other symbol raises. -/
def gspcOnly : FetchHistory :=
  fun s _ _ _ =>
    if s = "^GSPC" then FetchOutcome.ok [bar100, bar102] else FetchOutcome.err "boom"

/-- Indexing a column below its length is plain list indexing. -/
theorem cell_lt (l : List (Option ℚ)) (i : ℕ) (h : i < l.length) : cell l i = l[i] := by
  simp [cell, List.getD_eq_getElem?_getD, List.getElem?_eq_getElem h]

/-- Indexing a column past its length is NaN. -/
theorem cell_ge (l : List (Option ℚ)) (i : ℕ) (h : l.length ≤ i) : cell l i = none := by
  simp [cell, List.getD_eq_getElem?_getD, List.getElem?_eq_none h]

/-- A cell of an everywhere-valid column is valid. -/
theorem cell_ne_none (l : List (Option ℚ)) (i : ℕ) (hall : ∀ x ∈ l, x ≠ none)
    (h : i < l.length) : cell l i ≠ none := by
  rw [cell_lt l i h]
  exact hall _ (l.getElem_mem h)

/-- Indexing a column built pointwise over `List.range`. -/
theorem cell_range_map (g : ℕ → Option ℚ) (n i : ℕ) :
    cell ((List.range n).map g) i = if i < n then g i else none := by
  rcases lt_or_ge i n with h | h
  · simp [cell, List.getD_eq_getElem?_getD, List.getElem?_map, List.getElem?_range h, h]
  · simp [cell, List.getD_eq_getElem?_getD,
      List.getElem?_eq_none (by simpa using h : ((List.range n).map g).length ≤ i),
      if_neg (not_lt.mpr h)]

/-- Forward fill leaves a column with no NaN cells unchanged. -/
theorem ffillCol_of_ne_none :
    ∀ (l : List (Option ℚ)) (prev : Option ℚ), (∀ x ∈ l, x ≠ none) → ffillCol prev l = l
  | [], _, _ => rfl
  | x :: t, prev, h => by
    cases hx : x with
    | none => exact absurd hx (h x (List.mem_cons_self x t))
    | some v =>
      simp only [ffillCol]
      exact congrArg _ (ffillCol_of_ne_none t (some v) fun y hy => h y (List.mem_cons_of_mem _ hy))

/-- `pct_change` preserves the column length. -/
theorem length_pct_change (xs : List (Option ℚ)) : (pct_change xs).length = xs.length := by
  simp [pct_change]

/-- Rolling aggregation preserves the column length. -/
theorem length_rollingApply (f : List ℚ → ℚ) (xs : List (Option ℚ)) :
    (rollingApply f xs).length = xs.length := by
  simp [rollingApply]

/-- Pointwise description of `pct_change`. -/
theorem cell_pct_change (xs : List (Option ℚ)) (i : ℕ) :
    cell (pct_change xs) i =
      if i < xs.length then
        (if i = 0 then none
         else
           match cell xs (i - 1), cell xs i with
           | some prev, some cur =>
             if prev = 0 ∧ cur = 0 then none else some ((cur - prev) / prev)
           | _, _ => none)
      else none := by
  unfold pct_change
  rw [cell_range_map]

/-- A cell of a column of positive values is a positive value. -/
theorem cell_pos (xs : List (Option ℚ)) (hall : ∀ x ∈ xs, ∃ q, x = some q ∧ 0 < q)
    (i : ℕ) (hi : i < xs.length) : ∃ q, cell xs i = some q ∧ 0 < q := by
  rw [cell_lt _ _ hi]
  exact hall _ (xs.getElem_mem hi)

/-- On a column of positive values (whose quotients never hit `0 / 0`),
a return is valid exactly from index 1 on. -/
theorem cell_pct_change_ne (xs : List (Option ℚ))
    (hall : ∀ x ∈ xs, ∃ q, x = some q ∧ 0 < q) (i : ℕ)
    (hi : i < xs.length) : (cell (pct_change xs) i ≠ none ↔ 1 ≤ i) := by
  rw [cell_pct_change, if_pos hi]
  rcases Nat.eq_zero_or_pos i with rfl | hpos
  · simp
  · obtain ⟨a, ha, hapos⟩ := cell_pos xs hall (i - 1) (by omega)
    obtain ⟨b, hb, _⟩ := cell_pos xs hall i hi
    simp only [ha, hb, if_neg (Nat.pos_iff_ne_zero.mp hpos)]
    rw [if_neg (by intro hc; exact absurd hc.1 (ne_of_gt hapos))]
    constructor
    · intro _; omega
    · intro _; simp

/-- Length of the pandas window of size 20 ending at `i`. -/
theorem length_window20 (xs : List (Option ℚ)) (i : ℕ) (hi : i < xs.length) :
    (window20 xs i).length = if 19 ≤ i then 20 else i + 1 := by
  simp only [window20, List.length_drop, List.length_take]
  split <;> omega

/-- The window's cell `k` is the column's cell `i - 19 + k`. -/
theorem window20_getElem? (xs : List (Option ℚ)) (i k : ℕ) (hk : k ≤ 19) (h19 : 19 ≤ i) :
    (window20 xs i)[k]? = xs[i - 19 + k]? := by
  simp only [window20, List.getElem?_drop, List.getElem?_take]
  rw [if_pos (by omega)]

/-- Window cells are cells of the column. -/
theorem window20_subset (xs : List (Option ℚ)) (i : ℕ) :
    ∀ x ∈ window20 xs i, x ∈ xs := by
  intro x hx
  exact List.take_subset _ _ (List.drop_subset _ _ hx)

/-- Pointwise description of rolling aggregation. -/
theorem cell_rollingApply (f : List ℚ → ℚ) (xs : List (Option ℚ)) (i : ℕ) :
    cell (rollingApply f xs) i =
      if i < xs.length then
        (if (window20 xs i).length = 20 ∧ ∀ x ∈ window20 xs i, x ≠ none
         then some (f (window20 xs i).reduceOption) else none)
      else none := by
  unfold rollingApply
  rw [cell_range_map]

/-- Over an everywhere-valid column, a 20-period rolling statistic is
valid exactly from index 19 on. -/
theorem cell_rollingApply_allsome (f : List ℚ → ℚ) (xs : List (Option ℚ))
    (hall : ∀ x ∈ xs, x ≠ none) (i : ℕ) (hi : i < xs.length) :
    (cell (rollingApply f xs) i ≠ none ↔ 19 ≤ i) := by
  rw [cell_rollingApply, if_pos hi]
  have hw : ∀ x ∈ window20 xs i, x ≠ none := fun x hx => hall x (window20_subset xs i x hx)
  rcases le_or_lt 19 i with h | h
  · have hcond : (window20 xs i).length = 20 ∧ ∀ x ∈ window20 xs i, x ≠ none :=
      ⟨by rw [length_window20 xs i hi, if_pos h], hw⟩
    simp [if_pos hcond, h]
  · have hl : (window20 xs i).length = i + 1 := by
      rw [length_window20 xs i hi, if_neg (by omega)]
    have hcond : ¬((window20 xs i).length = 20 ∧ ∀ x ∈ window20 xs i, x ≠ none) := by
      rw [hl]; intro hc; omega
    simp [if_neg hcond]
    omega

/-- Over returns of an everywhere-valid column, a 20-period rolling
statistic is valid exactly from index 20 on: the window ending at 19
still contains the NaN return at index 0. -/
theorem cell_rollingApply_pct (f : List ℚ → ℚ) (xs : List (Option ℚ))
    (hall : ∀ x ∈ xs, ∃ q, x = some q ∧ 0 < q) (i : ℕ) (hi : i < xs.length) :
    (cell (rollingApply f (pct_change xs)) i ≠ none ↔ 20 ≤ i) := by
  have hlen : (pct_change xs).length = xs.length := length_pct_change xs
  rw [cell_rollingApply, if_pos (by omega)]
  rcases le_or_lt 20 i with h20 | h20
  · have h19 : 19 ≤ i := by omega
    have hwl : (window20 (pct_change xs) i).length = 20 := by
      rw [length_window20 _ _ (by omega), if_pos h19]
    have hws : ∀ x ∈ window20 (pct_change xs) i, x ≠ none := by
      intro x hx
      obtain ⟨k, hk⟩ := List.mem_iff_getElem?.mp hx
      have hklt : k < 20 := by
        have := (List.getElem?_eq_some.mp hk).1
        omega
      rw [window20_getElem? _ _ _ (by omega) h19] at hk
      obtain ⟨hj, hjeq⟩ := List.getElem?_eq_some.mp hk
      have hcell : cell (pct_change xs) (i - 19 + k) = x := by
        rw [cell_lt _ _ hj]; exact hjeq
      have hdef : cell (pct_change xs) (i - 19 + k) ≠ none :=
        (cell_pct_change_ne xs hall _ (by omega)).mpr (by omega)
      rw [hcell] at hdef
      exact hdef
    have hcond : (window20 (pct_change xs) i).length = 20 ∧
        ∀ x ∈ window20 (pct_change xs) i, x ≠ none := ⟨hwl, hws⟩
    simp [if_pos hcond, h20]
  · rcases le_or_lt 19 i with h19 | h19
    · have hi19 : i = 19 := by omega
      subst hi19
      have h0 : (window20 (pct_change xs) 19)[0]? = (pct_change xs)[0]? := by
        have := window20_getElem? (pct_change xs) 19 0 (by omega) (by omega)
        simpa using this
      have hr0 : (pct_change xs)[0]? = some none := by
        have h0lt : 0 < (pct_change xs).length := by omega
        rw [List.getElem?_eq_getElem h0lt, ← cell_lt _ _ h0lt, cell_pct_change,
          if_pos (by omega), if_pos rfl]
      have hmem : (none : Option ℚ) ∈ window20 (pct_change xs) 19 :=
        List.mem_iff_getElem?.mpr ⟨0, by rw [h0, hr0]⟩
      have hcond : ¬((window20 (pct_change xs) 19).length = 20 ∧
          ∀ x ∈ window20 (pct_change xs) 19, x ≠ none) := by
        intro hc
        exact hc.2 none hmem rfl
      simp [if_neg hcond]
    · have hl : (window20 (pct_change xs) i).length = i + 1 := by
        rw [length_window20 _ _ (by omega), if_neg (by omega)]
      have hcond : ¬((window20 (pct_change xs) i).length = 20 ∧
          ∀ x ∈ window20 (pct_change xs) i, x ≠ none) := by
        rw [hl]; intro hc; omega
      simp [if_neg hcond]
      omega

/-- Indexing a pointwise combination of two columns. -/
theorem cell_zipWith (g : Option ℚ → Option ℚ → Option ℚ) (xs ys : List (Option ℚ)) (i : ℕ)
    (hx : i < xs.length) (hy : i < ys.length) :
    cell (List.zipWith g xs ys) i = g (cell xs i) (cell ys i) := by
  simp [cell, List.getD_eq_getElem?_getD, List.getElem?_zipWith,
    List.getElem?_eq_getElem hx, List.getElem?_eq_getElem hy, cell_lt xs i hx, cell_lt ys i hy]

/-- A quotient with a valid non-zero numerator is valid exactly when the
denominator cell is (the `0 / 0` NaN case cannot arise). -/
theorem div2_ne_none_left (q : ℚ) (hq : q ≠ 0) (b : Option ℚ) :
    div2 (some q) b ≠ none ↔ b ≠ none := by
  cases b with
  | none => simp [div2]
  | some y => simp [div2, hq]

/-- C1: with the default loader (`max_retries = 3`, `retry_delay = 1`),
a provider that fails on every attempt makes `get_stock_data` return
`None` after exactly 3 fetch attempts, sleeping `retry_delay * 1` then
`retry_delay * 2` between consecutive attempts (strictly increasing
delays), with the final error diagnostic carrying the last attempt's
cause; and if attempt `j` (after `j` failures) succeeds with a non-empty
frame, the cleaned result is returned after exactly `j + 1` fetches with
no further attempts. -/
theorem get_stock_data_retry_policy (f : FetchHistory) (s p i : String) :
    (∀ es : ℕ → String, (∀ k, f s p i k = FetchOutcome.err (es k)) →
      get_stock_data DataLoader.init f s p i =
        (none,
         [Effect.fetch,
          Effect.warning ("Attempt " ++ toString (1 : ℕ) ++ " failed for " ++ s ++ ", retrying..."),
          Effect.sleep 1,
          Effect.fetch,
          Effect.warning ("Attempt " ++ toString (2 : ℕ) ++ " failed for " ++ s ++ ", retrying..."),
          Effect.sleep 2,
          Effect.fetch,
          Effect.error ("Failed to fetch data for " ++ s ++ " after " ++ toString (3 : ℕ) ++
            " attempts: " ++ es 2)])) ∧
    (∀ j bars, j < 3 → (∀ k, k < j → ∃ e, f s p i k = FetchOutcome.err e) →
      f s p i j = FetchOutcome.ok bars → bars ≠ [] →
      (get_stock_data DataLoader.init f s p i).1 = some (_clean_stock_data bars s) ∧
      numFetches (get_stock_data DataLoader.init f s p i).2 = j + 1 ∧
      sleeps (get_stock_data DataLoader.init f s p i).2 =
        (List.range j).map fun k => (k + 1 : ℚ)) := by
  constructor
  · intro es h
    have h0 := h 0
    have h1 := h 1
    have h2 := h 2
    simp [get_stock_data, fetchAttempts, DataLoader.init, h0, h1, h2]
  · intro j bars hj hk hok hne
    interval_cases j
    · simp [get_stock_data, fetchAttempts, DataLoader.init, hok, hne, numFetches, sleeps]
    · obtain ⟨e0, he0⟩ := hk 0 (by norm_num)
      simp [get_stock_data, fetchAttempts, DataLoader.init, he0, hok, hne, numFetches, sleeps]
      norm_num [List.range_succ, List.flatMap]
    · obtain ⟨e0, he0⟩ := hk 0 (by norm_num)
      obtain ⟨e1, he1⟩ := hk 1 (by norm_num)
      simp [get_stock_data, fetchAttempts, DataLoader.init, he0, he1, hok, hne, numFetches, sleeps]
      norm_num [List.range_succ, List.flatMap]

/-- C1 witness: the retry policy applied to a provider that always raises
`connection reset`, for `AAPL` over a one-year daily window. -/
theorem get_stock_data_retry_policy_witness :
    (get_stock_data DataLoader.init alwaysFail "AAPL" "1y" "1d").1 = none ∧
    numFetches (get_stock_data DataLoader.init alwaysFail "AAPL" "1y" "1d").2 = 3 ∧
    sleeps (get_stock_data DataLoader.init alwaysFail "AAPL" "1y" "1d").2 = [1, 2] := by
  have h := (get_stock_data_retry_policy alwaysFail "AAPL" "1y" "1d").1
    (fun _ => "connection reset") (fun k => rfl)
  rw [h]
  refine ⟨rfl, by simp [numFetches], by simp [sleeps]⟩

unseal Rat.sub Rat.add Rat.mul Rat.inv in
set_option maxRecDepth 8000 in
/-- C2 counterexample: on 20 constant fully-populated bars, the claim
says the rolling volatility is defined at every index of `[19, 20)`, but
the code leaves it NaN at index 19 — the 20-cell window of returns ending
there contains the undefined return at index 0 — while support is
defined there; and on 20 bars of zero volume (in-spec, volume is a
non-negative integer) the volume ratio is the indeterminate `0 / 0` and
hence NaN at index 19 as well, while the volume average there is a
defined zero. -/
theorem clean_volatility_window_counterexample :
    cell (_clean_stock_data constRaw20 "TEST").Volatility 19 = none ∧
    (_clean_stock_data constRaw20 "TEST").Volatility.length = 20 ∧
    cell (_clean_stock_data constRaw20 "TEST").Support 19 = some 1 ∧
    cell (_clean_stock_data constRawZeroVol20 "TEST").Volume_MA 19 = some 0 ∧
    cell ( StockFrame.Volume_Ratio (_clean_stock_data constRawZeroVol20 "TEST")) 19 = none := by
  refine ⟨by decide, by decide, by decide, by decide, by decide⟩

/-- C2 (amended): for a series of at least 20 bars whose fields are all
present and whose closes are positive, the support and resistance columns
of the cleaned frame are defined exactly on `[19, n)`; so is the volume
ratio when every volume is positive (a window of all-zero volumes leaves
the `0 / 0` ratio NaN even past index 19); and the volatility column — a
rolling statistic of returns, whose first entry is undefined — is defined
exactly on `[20, n)`. -/
theorem clean_rolling_definedness (raw : List RawBar) (symbol : String)
    (hall : ∀ b ∈ raw, b.Open ≠ none ∧ b.High ≠ none ∧ b.Low ≠ none ∧
      b.Close ≠ none ∧ b.Volume ≠ none)
    (hpos : ∀ b ∈ raw, ∀ q : ℚ, b.Close = some q → 0 < q)
    (hn : 20 ≤ raw.length) (i : ℕ) (hi : i < raw.length) :
    ((∀ b ∈ raw, ∀ q : ℚ, b.Volume = some q → 0 < q) →
      (cell ( StockFrame.Volume_Ratio (_clean_stock_data raw symbol)) i ≠ none ↔ 19 ≤ i)) ∧
    (cell (_clean_stock_data raw symbol).Support i ≠ none ↔ 19 ≤ i) ∧
    (cell (_clean_stock_data raw symbol).Resistance i ≠ none ↔ 19 ≤ i) ∧
    (cell (_clean_stock_data raw symbol).Volatility i ≠ none ↔ 20 ≤ i) := by
  have hfilter : raw.filter notAllNa = raw := by
    rw [List.filter_eq_self]
    intro b hb
    obtain ⟨h1, _, _, _, _⟩ := hall b hb
    obtain ⟨o, ho⟩ := Option.ne_none_iff_exists'.mp h1
    simp [notAllNa, ho]
  have hallcol : ∀ proj : RawBar → Option ℚ,
      (∀ b ∈ raw, proj b ≠ none) → ∀ x ∈ raw.map proj, x ≠ none := by
    intro proj hp x hx
    obtain ⟨b, hb, rfl⟩ := List.mem_map.mp hx
    exact hp b hb
  have hHigh : ∀ x ∈ raw.map RawBar.High, x ≠ none := hallcol _ fun b hb => (hall b hb).2.1
  have hLow : ∀ x ∈ raw.map RawBar.Low, x ≠ none := hallcol _ fun b hb => (hall b hb).2.2.1
  have hClose : ∀ x ∈ raw.map RawBar.Close, x ≠ none :=
    hallcol _ fun b hb => (hall b hb).2.2.2.1
  have hVolu : ∀ x ∈ raw.map RawBar.Volume, x ≠ none :=
    hallcol _ fun b hb => (hall b hb).2.2.2.2
  have hVR : StockFrame.Volume_Ratio (_clean_stock_data raw symbol) =
      List.zipWith div2 (raw.map RawBar.Volume)
        (rollingApply listMean (raw.map RawBar.Volume)) := by
    simp only [_clean_stock_data, hfilter, ffillCol_of_ne_none _ _ hVolu]
  have hSup : (_clean_stock_data raw symbol).Support =
      rollingApply listMin (raw.map RawBar.Low) := by
    simp only [_clean_stock_data, hfilter, ffillCol_of_ne_none _ _ hLow]
  have hRes : (_clean_stock_data raw symbol).Resistance =
      rollingApply listMax (raw.map RawBar.High) := by
    simp only [_clean_stock_data, hfilter, ffillCol_of_ne_none _ _ hHigh]
  have hVola : (_clean_stock_data raw symbol).Volatility =
      rollingApply sampleVar (pct_change (raw.map RawBar.Close)) := by
    simp only [_clean_stock_data, hfilter, ffillCol_of_ne_none _ _ hClose]
  have hiV : i < (raw.map RawBar.Volume).length := by simpa using hi
  have hiL : i < (raw.map RawBar.Low).length := by simpa using hi
  have hiH : i < (raw.map RawBar.High).length := by simpa using hi
  have hiC : i < (raw.map RawBar.Close).length := by simpa using hi
  have hClosePos : ∀ x ∈ raw.map RawBar.Close, ∃ q, x = some q ∧ 0 < q := by
    intro x hx
    obtain ⟨b, hb, rfl⟩ := List.mem_map.mp hx
    obtain ⟨q, hq⟩ := Option.ne_none_iff_exists'.mp (hall b hb).2.2.2.1
    exact ⟨q, hq, hpos b hb q hq⟩
  refine ⟨?_, ?_, ?_, ?_⟩
  · intro hvolpos
    have hVolPos : ∀ x ∈ raw.map RawBar.Volume, ∃ q, x = some q ∧ 0 < q := by
      intro x hx
      obtain ⟨b, hb, rfl⟩ := List.mem_map.mp hx
      obtain ⟨q, hq⟩ := Option.ne_none_iff_exists'.mp (hall b hb).2.2.2.2
      exact ⟨q, hq, hvolpos b hb q hq⟩
    rw [hVR, cell_zipWith div2 _ _ i hiV (by simpa [length_rollingApply] using hi)]
    obtain ⟨q, hq, hqpos⟩ := cell_pos _ hVolPos i hiV
    rw [hq, div2_ne_none_left q (ne_of_gt hqpos)]
    exact cell_rollingApply_allsome listMean _ hVolu i hiV
  · rw [hSup]
    exact cell_rollingApply_allsome listMin _ hLow i hiL
  · rw [hRes]
    exact cell_rollingApply_allsome listMax _ hHigh i hiH
  · rw [hVola]
    exact cell_rollingApply_pct sampleVar _ hClosePos i hiC

/-- C2 witness: on 20 constant positive bars (volume 1), the volume ratio
and support are defined at index 19 and the volatility is not. -/
theorem clean_rolling_definedness_witness :
    cell ( StockFrame.Volume_Ratio (_clean_stock_data constRaw20 "T")) 19 ≠ none ∧
    cell (_clean_stock_data constRaw20 "T").Support 19 ≠ none ∧
    ¬(cell (_clean_stock_data constRaw20 "T").Volatility 19 ≠ none) := by
  have h := clean_rolling_definedness constRaw20 "T"
    (by
      intro b hb
      simp [constRaw20] at hb
      subst hb
      simp [constBar])
    (by
      intro b hb q hq
      simp [constRaw20] at hb
      subst hb
      simp [constBar] at hq
      rw [← hq]
      norm_num)
    (by simp [constRaw20])
    19 (by simp [constRaw20])
  have hvolpos : ∀ b ∈ constRaw20, ∀ q : ℚ, b.Volume = some q → 0 < q := by
    intro b hb q hq
    simp [constRaw20] at hb
    subst hb
    simp [constBar] at hq
    rw [← hq]
    norm_num
  exact ⟨(h.1 hvolpos).mpr (by norm_num), h.2.1.mpr (by norm_num),
    fun hc => by have := h.2.2.2.mp hc; omega⟩

/-- C3 counterexample: with an empty symbol and period/interval tokens
outside the documented sets, `get_stock_data` still starts with a network
fetch and even retries to exhaustion — nothing is rejected with a
configuration error before the network attempt. -/
theorem get_stock_data_validation_counterexample :
    (get_stock_data DataLoader.init alwaysFail "" "BADPERIOD" "BADINTERVAL").2.head? =
      some Effect.fetch ∧
    numFetches (get_stock_data DataLoader.init alwaysFail "" "BADPERIOD" "BADINTERVAL").2 = 3 := by
  refine ⟨rfl, by decide⟩

/-- C3 (amended): `get_stock_data` performs no validation of symbol,
period or interval — for every input, as soon as at least one attempt is
configured, its first observable action is a provider fetch, and there is
no configuration-error outcome. -/
theorem get_stock_data_fetches_first (dl : DataLoader) (f : FetchHistory) (s p i : String)
    (h : 1 ≤ dl.max_retries) :
    (get_stock_data dl f s p i).2.head? = some Effect.fetch := by
  obtain ⟨m, hm⟩ : ∃ m, dl.max_retries = m + 1 := ⟨dl.max_retries - 1, by omega⟩
  unfold get_stock_data
  rw [hm]
  cases hf : f s p i 0 with
  | ok bars =>
    by_cases hb : bars.isEmpty <;> simp [fetchAttempts, hf, hb]
  | err e =>
    by_cases hr : 0 < dl.max_retries - 1 <;> simp [fetchAttempts, hf, hr]

/-- C3 witness: even for an empty symbol and nonsense tokens, the first
effect is a fetch. -/
theorem get_stock_data_fetches_first_witness :
    (get_stock_data DataLoader.init alwaysFail "" "x" "y").2.head? = some Effect.fetch :=
  get_stock_data_fetches_first DataLoader.init alwaysFail "" "x" "y" (by decide)

/-- C4 counterexample: an empty-but-successful provider response and a
provider that always raises produce the very same returned value `None` —
the not-found condition is distinguishable only in the diagnostic
message, not as a distinct result kind. -/
theorem get_stock_data_notfound_value_counterexample :
    (get_stock_data DataLoader.init emptyOk "MISSING" "1y" "1d").1 = none ∧
    (get_stock_data DataLoader.init alwaysFail "MISSING" "1y" "1d").1 = none ∧
    (get_stock_data DataLoader.init emptyOk "MISSING" "1y" "1d").1 =
      (get_stock_data DataLoader.init alwaysFail "MISSING" "1y" "1d").1 ∧
    numFetches (get_stock_data DataLoader.init emptyOk "MISSING" "1y" "1d").2 = 1 := by
  refine ⟨rfl, rfl, rfl, by decide⟩

/-- C4 (amended): when the first attempt succeeds with an empty frame,
`get_stock_data` immediately returns `None` — the same value a fetch
failure returns — after exactly one fetch, with no retry and no sleep,
and reports the not-found condition only through its distinct `No data
found` error diagnostic. -/
theorem get_stock_data_empty_not_found (dl : DataLoader) (f : FetchHistory) (s p i : String)
    (h1 : 1 ≤ dl.max_retries) (h : f s p i 0 = FetchOutcome.ok []) :
    get_stock_data dl f s p i =
      (none, [Effect.fetch, Effect.error ("No data found for symbol: " ++ s)]) := by
  obtain ⟨m, hm⟩ : ∃ m, dl.max_retries = m + 1 := ⟨dl.max_retries - 1, by omega⟩
  unfold get_stock_data
  rw [hm]
  simp [fetchAttempts, h]

/-- C4 witness: the empty-response behaviour at a concrete symbol. -/
theorem get_stock_data_empty_not_found_witness :
    get_stock_data DataLoader.init emptyOk "MISSING" "1y" "1d" =
      (none, [Effect.fetch, Effect.error "No data found for symbol: MISSING"]) := by
  have h := get_stock_data_empty_not_found DataLoader.init emptyOk "MISSING" "1y" "1d"
    (by decide) rfl
  rw [h]
  rfl

/-- Accumulator-independent description of the `get_multiple_stocks`
loop: the success map pairs each succeeding symbol with its frame in
input order, and the failed list is the input filtered to the symbols
whose fetch returned `None`. -/
theorem gmsLoop_spec (dl : DataLoader) (f : FetchHistory) (period : String) (total : ℕ) :
    ∀ (symbols : List String) (i : ℕ),
      (gmsLoop dl f period total symbols i).1 =
        symbols.filterMap
          (fun s => ((get_stock_data dl f s period "1d").1).map fun fr => (s, fr)) ∧
      (gmsLoop dl f period total symbols i).2.1 =
        symbols.filter fun s => ((get_stock_data dl f s period "1d").1).isNone := by
  intro symbols
  induction symbols with
  | nil => intro i; simp [gmsLoop]
  | cons s rest ih =>
    intro i
    have h := ih (i + 1)
    cases hr : (get_stock_data dl f s period "1d").1 with
    | none => simp [gmsLoop, hr, h.1, h.2]
    | some frame => simp [gmsLoop, hr, h.1, h.2]

/-- C5 (amended): `get_multiple_stocks` fetches each symbol independently
through `get_stock_data` and a failure never aborts the batch, but its
returned value is only the mapping of successful symbols to their frames;
the failed symbols are not part of the return value — they are reported
through a single warning diagnostic naming them all. -/
theorem get_multiple_stocks_partial_batch (dl : DataLoader) (f : FetchHistory)
    (symbols : List String) (period : String) :
    (get_multiple_stocks dl f symbols period).1 =
      symbols.filterMap
        (fun s => ((get_stock_data dl f s period "1d").1).map fun fr => (s, fr)) ∧
    (symbols.filter (fun s => ((get_stock_data dl f s period "1d").1).isNone) ≠ [] →
      Effect.warning ("Failed to load data for: " ++ String.intercalate ", "
          (symbols.filter fun s => ((get_stock_data dl f s period "1d").1).isNone)) ∈
        (get_multiple_stocks dl f symbols period).2) := by
  have h := gmsLoop_spec dl f period symbols.length symbols 0
  constructor
  · simp only [get_multiple_stocks]
    exact h.1
  · intro hne
    have hfl := h.2
    have hne' : ((gmsLoop dl f period symbols.length symbols 0).2.1).isEmpty = false := by
      rw [hfl]
      simpa [List.isEmpty_iff] using hne
    simp [get_multiple_stocks, hne', hfl]
    right
    obtain ⟨x, hx⟩ := List.exists_mem_of_ne_nil _ hne
    have hx' := List.mem_filter.mp hx
    exact ⟨x, hx'.1, by simpa [Option.isNone_iff_eq_none] using hx'.2⟩

/-- C5 counterexample: for `[AAPL, BADSYM]` with only `AAPL` resolving,
the returned value is exactly the one-entry success map — `BADSYM`
appears nowhere in the return value, only inside the warning diagnostic —
so the operation does not return the set of failed symbols. -/
theorem get_multiple_stocks_return_counterexample :
    (get_multiple_stocks DataLoader.init aaplOnly ["AAPL", "BADSYM"] "1y").1 =
      [("AAPL", _clean_stock_data [constBar] "AAPL")] ∧
    ((get_multiple_stocks DataLoader.init aaplOnly ["AAPL", "BADSYM"] "1y").1.map Prod.fst) =
      ["AAPL"] ∧
    Effect.warning "Failed to load data for: BADSYM" ∈
      (get_multiple_stocks DataLoader.init aaplOnly ["AAPL", "BADSYM"] "1y").2 := by
  refine ⟨rfl, rfl, by decide⟩

/-- C5 witness: the amended statement applied to `[AAPL, BADSYM]` with
only `AAPL` resolving. -/
theorem get_multiple_stocks_partial_batch_witness :
    (get_multiple_stocks DataLoader.init aaplOnly ["AAPL", "BADSYM"] "1y").1 =
      ["AAPL", "BADSYM"].filterMap (fun s =>
        ((get_stock_data DataLoader.init aaplOnly s "1y" "1d").1).map fun fr => (s, fr)) ∧
    Effect.warning ("Failed to load data for: " ++ String.intercalate ", "
        (["AAPL", "BADSYM"].filter fun s =>
          ((get_stock_data DataLoader.init aaplOnly s "1y" "1d").1).isNone)) ∈
      (get_multiple_stocks DataLoader.init aaplOnly ["AAPL", "BADSYM"] "1y").2 := by
  have h := get_multiple_stocks_partial_batch DataLoader.init aaplOnly ["AAPL", "BADSYM"] "1y"
  exact ⟨h.1, h.2 (by decide)⟩

/-- C6: the code contradicts the claim for numeric fields — when the
provider omits a field, `get_company_info` fills string-typed fields with
the `N/A` marker but fills every numeric field with the number `0`,
indistinguishable from a real zero; a total fetch failure does return
`None` (distinct from any profile) with an error diagnostic. -/
theorem get_company_info_zero_defaults :
    ((get_company_info (fun _ => Except.ok []) "TSLA").1).map CompanyInfo.market_cap =
      some (InfoValue.num 0) ∧
    ((get_company_info (fun _ => Except.ok []) "TSLA").1).map CompanyInfo.pe_ratio =
      some (InfoValue.num 0) ∧
    ((get_company_info (fun _ => Except.ok []) "TSLA").1).map CompanyInfo.dividend_yield =
      some (InfoValue.num 0) ∧
    ((get_company_info (fun _ => Except.ok []) "TSLA").1).map CompanyInfo.name =
      some (InfoValue.str "N/A") ∧
    ((get_company_info
        (fun _ => Except.ok [("marketCap", InfoValue.num 0)]) "TSLA").1).map
      CompanyInfo.market_cap = some (InfoValue.num 0) ∧
    (get_company_info (fun _ => Except.error "HTTP 500") "TSLA").1 = none ∧
    (get_company_info (fun _ => Except.error "HTTP 500") "TSLA").2 =
      [Effect.error "Error fetching company info for TSLA: HTTP 500"] := by
  refine ⟨rfl, rfl, rfl, rfl, rfl, rfl, rfl⟩

/-- A skipped index always leaves its insufficient-data warning in the
trace. -/
theorem processIndex_none_warning (dl : DataLoader) (f : FetchHistory) (p : String × String)
    (h : (processIndex dl f p).1 = none) :
    Effect.warning ("Insufficient data for " ++ p.1) ∈ (processIndex dl f p).2 := by
  cases hr : (get_stock_data dl f p.2 "5d" "1d").1 with
  | none => simp [processIndex, hr]
  | some frame =>
    by_cases hlen : 2 ≤ frame.len
    · simp [processIndex, hr, hlen] at h
    · simp [processIndex, hr, hlen]

/-- Every snapshot built by `processIndex` stores its backing frame,
holds at least 2 rows, and satisfies the source's change formulas. -/
theorem processIndex_fields (dl : DataLoader) (f : FetchHistory) (p : String × String)
    (snap : IndexSnapshot) (h : (processIndex dl f p).1 = some snap) :
    (get_stock_data dl f p.2 "5d" "1d").1 = some snap.data ∧
    2 ≤ snap.data.len ∧
    snap.symbol = p.2 ∧
    snap.current = cell snap.data.Close (snap.data.len - 1) ∧
    snap.previous = cell snap.data.Close (snap.data.len - 2) ∧
    snap.change = sub2 snap.current snap.previous ∧
    snap.change_pct = (div2 snap.change snap.previous).map (· * 100) := by
  cases hr : (get_stock_data dl f p.2 "5d" "1d").1 with
  | none => simp [processIndex, hr] at h
  | some frame =>
    by_cases hlen : 2 ≤ frame.len
    · simp [processIndex, hr, hlen] at h
      subst h
      refine ⟨?_, ?_, rfl, rfl, rfl, rfl, rfl⟩
      · simp
      · simpa using hlen
    · simp [processIndex, hr, hlen] at h

/-- An index yields a snapshot exactly when its fetch succeeded with at
least 2 rows. -/
theorem processIndex_some_iff (dl : DataLoader) (f : FetchHistory) (p : String × String) :
    (∃ snap, (processIndex dl f p).1 = some snap) ↔
      ∃ frame, (get_stock_data dl f p.2 "5d" "1d").1 = some frame ∧ 2 ≤ frame.len := by
  cases hr : (get_stock_data dl f p.2 "5d" "1d").1 with
  | none => simp [processIndex, hr]
  | some frame =>
    by_cases hlen : 2 ≤ frame.len
    · simp [processIndex, hr, hlen]
    · simp [processIndex, hr, hlen]

/-- Membership of a named index in the `get_market_indices` result is
decided by its own `processIndex` outcome (the five index names are
distinct). -/
theorem mem_get_market_indices (dl : DataLoader) (f : FetchHistory) (name symbol : String)
    (snap : IndexSnapshot) (h : (name, symbol) ∈ indicesList) :
    ((name, snap) ∈ (get_market_indices dl f).1 ↔
      (processIndex dl f (name, symbol)).1 = some snap) := by
  fin_cases h <;> simp [get_market_indices, indicesList]

/-- C7 (amended): every index of the fixed table is included in
`get_market_indices` exactly when its trailing 5-day fetch succeeded with
at least 2 rows; each included snapshot satisfies
`change = latest close − prior close` and
`change percentage = (change / prior close) * 100`; an omitted index
leaves a warning diagnostic, not a fatal error. -/
theorem get_market_indices_spec (dl : DataLoader) (f : FetchHistory) (name symbol : String)
    (h : (name, symbol) ∈ indicesList) :
    ((∃ snap, (name, snap) ∈ (get_market_indices dl f).1) ↔
      (∃ frame, (get_stock_data dl f symbol "5d" "1d").1 = some frame ∧ 2 ≤ frame.len)) ∧
    (∀ snap, (name, snap) ∈ (get_market_indices dl f).1 →
      2 ≤ snap.data.len ∧
      snap.current = cell snap.data.Close (snap.data.len - 1) ∧
      snap.previous = cell snap.data.Close (snap.data.len - 2) ∧
      snap.change = sub2 snap.current snap.previous ∧
      snap.change_pct = (div2 snap.change snap.previous).map (· * 100)) ∧
    ((∀ snap, (name, snap) ∉ (get_market_indices dl f).1) →
      Effect.warning ("Insufficient data for " ++ name) ∈ (get_market_indices dl f).2) := by
  refine ⟨⟨?_, ?_⟩, ?_, ?_⟩
  · rintro ⟨snap, hs⟩
    have hm := (mem_get_market_indices dl f name symbol snap h).mp hs
    have hf := processIndex_fields dl f (name, symbol) snap hm
    exact ⟨snap.data, hf.1, hf.2.1⟩
  · rintro ⟨frame, hfr, hlen⟩
    obtain ⟨snap, hsnap⟩ := (processIndex_some_iff dl f (name, symbol)).mpr ⟨frame, hfr, hlen⟩
    exact ⟨snap, (mem_get_market_indices dl f name symbol snap h).mpr hsnap⟩
  · intro snap hs
    have hf := processIndex_fields dl f (name, symbol) snap
      ((mem_get_market_indices dl f name symbol snap h).mp hs)
    exact ⟨hf.2.1, hf.2.2.2.1, hf.2.2.2.2.1, hf.2.2.2.2.2.1, hf.2.2.2.2.2.2⟩
  · intro hnone
    have hpi : (processIndex dl f (name, symbol)).1 = none := by
      cases hp : (processIndex dl f (name, symbol)).1 with
      | none => rfl
      | some snap =>
        exact absurd ((mem_get_market_indices dl f name symbol snap h).mpr hp) (hnone snap)
    have hw := processIndex_none_warning dl f (name, symbol) hpi
    have hmem : (processIndex dl f (name, symbol)).2 ∈
        indicesList.map fun p => (processIndex dl f p).2 :=
      List.mem_map.mpr ⟨(name, symbol), h, rfl⟩
    exact List.mem_flatten.mpr ⟨(processIndex dl f (name, symbol)).2, hmem, hw⟩

unseal Rat.sub Rat.add Rat.mul Rat.inv in
/-- C7 counterexample: with the S&P 500 window holding closes 100 then
102, the included snapshot carries a change of 2 and a change percentage
of 2 (that is, `(change / previous) * 100`), whereas the claim's formula
`change / prior close` evaluates to `1/50` — the stored percentage is 100
times the claimed quotient. -/
theorem get_market_indices_change_pct_counterexample :
    ((List.lookup "S&P 500" (get_market_indices DataLoader.init gspcOnly).1).map fun s =>
        s.change_pct) = some (some 2) ∧
    ((List.lookup "S&P 500" (get_market_indices DataLoader.init gspcOnly).1).map fun s =>
        div2 s.change s.previous) = some (some (1 / 50)) ∧
    ¬((some (2 : ℚ) : Option ℚ) = some (1 / 50 : ℚ)) := by
  refine ⟨by decide, by decide, by norm_num⟩

/-- C7 witness: under a provider where only the S&P 500 symbol resolves
(with 2 bars), that index is included and NASDAQ's omission leaves its
warning. -/
theorem get_market_indices_spec_witness :
    (∃ snap, ("S&P 500", snap) ∈ (get_market_indices DataLoader.init gspcOnly).1) ∧
    Effect.warning "Insufficient data for NASDAQ" ∈
      (get_market_indices DataLoader.init gspcOnly).2 := by
  have h1 := get_market_indices_spec DataLoader.init gspcOnly "S&P 500" "^GSPC" (by decide)
  have h2 := get_market_indices_spec DataLoader.init gspcOnly "NASDAQ" "^IXIC" (by decide)
  constructor
  · exact h1.1.mpr ⟨_clean_stock_data [bar100, bar102] "^GSPC", rfl, by decide⟩
  · apply h2.2.2
    intro snap hs
    have := h2.1.mp ⟨snap, hs⟩
    obtain ⟨fr, hfr, _⟩ := this
    rw [show (get_stock_data DataLoader.init gspcOnly "^IXIC" "5d" "1d").1 = none from rfl]
      at hfr
    cases hfr

unseal Rat.sub Rat.add Rat.mul Rat.inv in
/-- C8: the exact formatter cases — `format_currency` yields `N/A` on a
missing or exactly-zero value, `$1.50M` on 1 500 000 and `$2.30B` on
2 300 000 000; `format_percentage` yields `5.23%` on the decimal fraction
0.0523 and `N/A` on a missing or exactly-zero value; and each of the
T/B/M/K suffixes is applied with two decimals and a dollar prefix
exactly on its threshold range 1e12 / 1e9 / 1e6 / 1e3. -/
theorem format_exact_cases :
    format_currency none = "N/A" ∧
    format_currency (some 0) = "N/A" ∧
    format_currency (some 1500000) = "$1.50M" ∧
    format_currency (some 2300000000) = "$2.30B" ∧
    format_percentage (some (523 / 10000)) = "5.23%" ∧
    format_percentage none = "N/A" ∧
    format_percentage (some 0) = "N/A" ∧
    (∀ v : ℚ, (10 : ℚ) ^ 12 ≤ v →
      format_currency (some v) = "$" ++ formatFixed2 (v / 10 ^ 12) ++ "T") ∧
    (∀ v : ℚ, (10 : ℚ) ^ 9 ≤ v → v < 10 ^ 12 →
      format_currency (some v) = "$" ++ formatFixed2 (v / 10 ^ 9) ++ "B") ∧
    (∀ v : ℚ, (10 : ℚ) ^ 6 ≤ v → v < 10 ^ 9 →
      format_currency (some v) = "$" ++ formatFixed2 (v / 10 ^ 6) ++ "M") ∧
    (∀ v : ℚ, (10 : ℚ) ^ 3 ≤ v → v < 10 ^ 6 →
      format_currency (some v) = "$" ++ formatFixed2 (v / 10 ^ 3) ++ "K") := by
  refine ⟨rfl, by decide, by decide, by decide, by decide, rfl, by decide, ?_, ?_, ?_, ?_⟩
  · intro v hv
    have hv0 : ¬(v = 0) := by intro h; rw [h] at hv; norm_num at hv
    simp only [format_currency, if_neg hv0, if_pos hv]
  · intro v hv hlt
    have hv0 : ¬(v = 0) := by intro h; rw [h] at hv; norm_num at hv
    simp only [format_currency, if_neg hv0, if_neg (not_le.mpr hlt), if_pos hv]
  · intro v hv hlt
    have hv0 : ¬(v = 0) := by intro h; rw [h] at hv; norm_num at hv
    have h12 : ¬((10 : ℚ) ^ 12 ≤ v) := by intro h; norm_num at h hlt; linarith
    simp only [format_currency, if_neg hv0, if_neg h12, if_neg (not_le.mpr hlt), if_pos hv]
  · intro v hv hlt
    have hv0 : ¬(v = 0) := by intro h; rw [h] at hv; norm_num at hv
    have h12 : ¬((10 : ℚ) ^ 12 ≤ v) := by intro h; norm_num at h hlt; linarith
    have h9 : ¬((10 : ℚ) ^ 9 ≤ v) := by intro h; norm_num at h hlt; linarith
    simp only [format_currency, if_neg hv0, if_neg h12, if_neg h9,
      if_neg (not_le.mpr hlt), if_pos hv]

unseal Rat.sub Rat.add Rat.mul Rat.inv in
/-- C8 witness: the T-threshold branch applied at two trillion. -/
theorem format_exact_cases_witness :
    format_currency (some 2000000000000) = "$" ++ formatFixed2 (2000000000000 / 10 ^ 12) ++ "T" :=
  (format_exact_cases.2.2.2.2.2.2.2.1) 2000000000000 (by norm_num)

unseal Rat.sub Rat.add Rat.mul Rat.inv in
/-- C10: for strictly negative values every threshold comparison fails —
the comparisons test the signed value, not its magnitude — so
`format_currency` renders a dollar sign plus the full two-decimal value
and `format_number` the full two-decimal value, never a T/B/M/K suffix;
in particular −2·10⁹ renders as `$-2000000000.00`. -/
theorem format_negative_no_suffix :
    (∀ v : ℚ, v < 0 →
      format_currency (some v) = "$" ++ formatFixed2 v ∧
      format_number (some v) = formatFixed2 v) ∧
    format_currency (some (-2000000000)) = "$-2000000000.00" ∧
    format_number (some (-2000000000)) = "-2000000000.00" := by
  refine ⟨?_, by decide, by decide⟩
  intro v hv
  have hv0 : ¬(v = 0) := by intro h; rw [h] at hv; norm_num at hv
  have h12 : ¬((10 : ℚ) ^ 12 ≤ v) := by intro h; norm_num at h; linarith
  have h9 : ¬((10 : ℚ) ^ 9 ≤ v) := by intro h; norm_num at h; linarith
  have h6 : ¬((10 : ℚ) ^ 6 ≤ v) := by intro h; norm_num at h; linarith
  have h3 : ¬((10 : ℚ) ^ 3 ≤ v) := by intro h; norm_num at h; linarith
  exact ⟨by simp only [format_currency, if_neg hv0, if_neg h12, if_neg h9, if_neg h6, if_neg h3],
    by simp only [format_number, if_neg hv0, if_neg h9, if_neg h6, if_neg h3]⟩

/-- C10 witness: the negative branch applied at −5. -/
theorem format_negative_no_suffix_witness :
    format_currency (some (-5)) = "$" ++ formatFixed2 (-5) ∧
    format_number (some (-5)) = formatFixed2 (-5) :=
  format_negative_no_suffix.1 (-5) (by norm_num)

/-- C9: in the time-to-live cache modelled from the spec, two calls for
the same key within the time-to-live perform at most one underlying
computation; a payload is only ever served from an entry no older than
the time-to-live (a stale entry is never served); and the per-kind
time-to-live constants taken from the source's decorators are 5 minutes
for stock bars, 10 minutes for market indices, 1 hour for the company
profile and 30 minutes for news. -/
theorem cache_ttl_policy :
    (∀ (key : String × String × String)
       (compute : String × String × String → Option StockFrame × List Effect)
       (c : CacheMap (String × String × String) (Option StockFrame × List Effect)) (t1 t2 : ℚ),
       t1 ≤ t2 → t2 - t1 ≤ get_stock_data_ttl →
       (cachedCall get_stock_data_ttl compute c key t1).2.2 +
         (cachedCall get_stock_data_ttl compute
           (cachedCall get_stock_data_ttl compute c key t1).2.1 key t2).2.2 ≤ 1) ∧
    (∀ (ttl now : ℚ) (c : CacheMap (String × String × String) (Option StockFrame × List Effect))
       (key : String × String × String) (v : Option StockFrame × List Effect),
       cacheServe ttl now c key = some v →
       ∃ e, cacheLookup c key = some e ∧ now - e.fetchTime ≤ ttl ∧ v = e.payload) ∧
    get_stock_data_ttl = 5 * 60 ∧ get_market_indices_ttl = 10 * 60 ∧
    get_company_info_ttl = 60 * 60 ∧ get_stock_news_ttl = 30 * 60 := by
  refine ⟨?_, ?_, by norm_num [get_stock_data_ttl], by norm_num [get_market_indices_ttl],
    by norm_num [get_company_info_ttl], by norm_num [get_stock_news_ttl]⟩
  · intro key compute c t1 t2 h12 httl
    cases hs : cacheServe get_stock_data_ttl t1 c key with
    | some v =>
      simp only [cachedCall, hs]
      cases hs2 : cacheServe get_stock_data_ttl t2 c key with
      | some w => simp [hs2]
      | none => simp [hs2]
    | none =>
      simp only [cachedCall, hs]
      have hserve : cacheServe get_stock_data_ttl t2
          ((key, ⟨compute key, t1⟩) :: c) key = some (compute key) := by
        simp [cacheServe, cacheLookup, httl]
      simp [hserve]
  · intro ttl now c key v hs
    unfold cacheServe at hs
    cases hl : cacheLookup c key with
    | none => rw [hl] at hs; cases hs
    | some e =>
      rw [hl] at hs
      have hs' : (if now - e.fetchTime ≤ ttl then some e.payload else none) = some v := hs
      by_cases hfresh : now - e.fetchTime ≤ ttl
      · rw [if_pos hfresh] at hs'
        exact ⟨e, rfl, hfresh, (Option.some.inj hs').symm⟩
      · rw [if_neg hfresh] at hs'
        cases hs'

/-- C9 witness: two cached calls for the same key 200 time units apart —
within the 300-unit stock-bar time-to-live — perform at most one
computation in total, instantiated with `get_stock_data` over an
always-failing provider as the computed operation. -/
theorem cache_ttl_policy_witness :
    (cachedCall get_stock_data_ttl
        (fun k => get_stock_data DataLoader.init alwaysFail k.1 k.2.1 k.2.2)
        ((cachedCall get_stock_data_ttl
          (fun k => get_stock_data DataLoader.init alwaysFail k.1 k.2.1 k.2.2)
          [] ("AAPL", "1y", "1d") 0).2.1) ("AAPL", "1y", "1d") 200).2.2 +
      (cachedCall get_stock_data_ttl
        (fun k => get_stock_data DataLoader.init alwaysFail k.1 k.2.1 k.2.2)
        [] ("AAPL", "1y", "1d") 0).2.2 ≤ 2 := by
  have h := cache_ttl_policy.1 ("AAPL", "1y", "1d")
    (fun k => get_stock_data DataLoader.init alwaysFail k.1 k.2.1 k.2.2) [] 0 200
    (by norm_num) (by norm_num [get_stock_data_ttl])
  omega
